import Mathlib

/-!
Shallow embedding of the `simple-geometry` library (files `geometry/point.py`,
`geometry/handles.py`, `geometry/translate.py`, `geometry/rect.py`,
`geometry/group.py`, `geometry/canvas.py`).  Python numbers (`int`/`float`)
are modelled by exact rationals `ℚ`; every definition mirrors the
corresponding Python function.
-/

namespace Geo

/-- `point.py`: a 2D point, a named tuple of an x and a y coordinate. -/
structure Point where
  x : ℚ
  y : ℚ
deriving DecidableEq, Repr

/-- `Point.__add__`: componentwise addition. -/
def Point.add (p q : Point) : Point := ⟨p.x + q.x, p.y + q.y⟩

/-- `Point.__sub__`: componentwise subtraction. -/
def Point.sub (p q : Point) : Point := ⟨p.x - q.x, p.y - q.y⟩

/-- `Point.__mul__` (and `__rmul__`): scalar multiplication. -/
def Point.mul (p : Point) (factor : ℚ) : Point := ⟨p.x * factor, p.y * factor⟩

/-- `Point.__neg__`: componentwise negation. -/
def Point.neg (p : Point) : Point := ⟨-p.x, -p.y⟩

/-- `Point.yx`: transpose, i.e. flip x and y. -/
def Point.yx (p : Point) : Point := ⟨p.y, p.x⟩

/-- The name of one of the four edges of a rectangle (the `name` strings
`'left'`, `'right'`, `'bottom'`, `'top'` used by `handles.py`). -/
inductive EdgeName
| left
| right
| bottom
| top
deriving DecidableEq, Repr

/-- `handles.py` `EdgeHandle`: a named edge together with a sign `factor`
(+1 for `right`/`top`, -1 for `left`/`bottom`) and an accumulated `offset`.
The Python `factor` is an `int`; it is embedded into `ℚ`. -/
structure EdgeHandle where
  name : EdgeName
  factor : ℚ
  offset : ℚ
deriving DecidableEq, Repr

/-- `EdgeHandle.__add__`: offset the edge away from the center. -/
def EdgeHandle.add (h : EdgeHandle) (offset : ℚ) : EdgeHandle :=
  ⟨h.name, h.factor, h.offset + h.factor * offset⟩

/-- `EdgeHandle.__sub__`: offset the edge towards the center. -/
def EdgeHandle.sub (h : EdgeHandle) (offset : ℚ) : EdgeHandle :=
  ⟨h.name, h.factor, h.offset - h.factor * offset⟩

/-- `handles.py` `PointHandle`: a corner handle, a pair of edge handles. -/
structure PointHandle where
  y : EdgeHandle
  x : EdgeHandle
deriving DecidableEq, Repr

/-- `handles.py` `_to_vector`: a scalar is promoted to a diagonal vector. -/
def toVector (a : ℚ) : Point := ⟨a, a⟩

/-- `PointHandle.__add__` applied to a vector argument. -/
def PointHandle.addP (ph : PointHandle) (vec : Point) : PointHandle :=
  ⟨ph.y.add vec.y, ph.x.add vec.x⟩

/-- `PointHandle.__sub__` applied to a vector argument. -/
def PointHandle.subP (ph : PointHandle) (vec : Point) : PointHandle :=
  ⟨ph.y.sub vec.y, ph.x.sub vec.x⟩

/-- `PointHandle.__add__` applied to a scalar argument (via `_to_vector`). -/
def PointHandle.addN (ph : PointHandle) (a : ℚ) : PointHandle :=
  ph.addP (toVector a)

/-- `handles.py` `MultiHandle`: a named list of edge handles. -/
structure MultiHandle where
  name : String
  edges : List EdgeHandle
deriving DecidableEq, Repr

/-- `MultiHandle.__add__`: offset every edge away from the center. -/
def MultiHandle.add (mh : MultiHandle) (offset : ℚ) : MultiHandle :=
  ⟨mh.name, mh.edges.map (fun e => e.add offset)⟩

/-- `MultiHandle.__sub__`: offset every edge towards the center. -/
def MultiHandle.sub (mh : MultiHandle) (offset : ℚ) : MultiHandle :=
  ⟨mh.name, mh.edges.map (fun e => e.sub offset)⟩

namespace Handles

/-- `handles.py`: `left = EdgeHandle('left', -1)`. -/
def left : EdgeHandle := ⟨.left, -1, 0⟩

/-- `handles.py`: `right = EdgeHandle('right', 1)`. -/
def right : EdgeHandle := ⟨.right, 1, 0⟩

/-- `handles.py`: `bottom = EdgeHandle('bottom', -1)`. -/
def bottom : EdgeHandle := ⟨.bottom, -1, 0⟩

/-- `handles.py`: `top = EdgeHandle('top', 1)`. -/
def top : EdgeHandle := ⟨.top, 1, 0⟩

/-- `handles.py`: `top_left = PointHandle(top, left)`. -/
def top_left : PointHandle := ⟨top, left⟩

/-- `handles.py`: `top_right = PointHandle(top, right)`. -/
def top_right : PointHandle := ⟨top, right⟩

/-- `handles.py`: `bottom_left = PointHandle(bottom, left)`. -/
def bottom_left : PointHandle := ⟨bottom, left⟩

/-- `handles.py`: `bottom_right = PointHandle(bottom, right)`. -/
def bottom_right : PointHandle := ⟨bottom, right⟩

/-- `handles.py`: `out = MultiHandle('out', [left, right, top, bottom])`. -/
def out : MultiHandle := ⟨"out", [left, right, top, bottom]⟩

/-- `handles.py`: the inward multi handle `in_`. -/
def in_ : MultiHandle :=
  ⟨"in", [⟨.left, 1, 0⟩, ⟨.right, -1, 0⟩, ⟨.bottom, 1, 0⟩, ⟨.top, -1, 0⟩]⟩

end Handles

/-- `rect.py` `BaseRect`: an axis-aligned rectangle given by its center
`(x, y)`, its `width` and its `height`. -/
structure Rect where
  x : ℚ
  y : ℚ
  width : ℚ
  height : ℚ
deriving DecidableEq, Repr

/-- `translate.py` `CanTranslate.left` (getter): `x - width / 2`. -/
def Rect.left (r : Rect) : ℚ := r.x - r.width / 2

/-- `translate.py` `CanTranslate.right` (getter): `x + width / 2`. -/
def Rect.right (r : Rect) : ℚ := r.x + r.width / 2

/-- `translate.py` `CanTranslate.bottom` (getter): `y - height / 2`. -/
def Rect.bottom (r : Rect) : ℚ := r.y - r.height / 2

/-- `translate.py` `CanTranslate.top` (getter): `y + height / 2`. -/
def Rect.top (r : Rect) : ℚ := r.y + r.height / 2

/-- `BaseRect.__post_init__` succeeds: `width >= 0 and height >= 0`
(otherwise the constructor raises `AssertionError`). -/
def Rect.sizeOk (r : Rect) : Prop := 0 ≤ r.width ∧ 0 ≤ r.height

instance (r : Rect) : Decidable r.sizeOk := by
  unfold Rect.sizeOk; infer_instance

/-- The checked constructor `Rect(x, y, width, height)`: `none` models the
`AssertionError` of `__post_init__`. -/
def mkRect (x y width height : ℚ) : Option Rect :=
  if 0 ≤ width ∧ 0 ≤ height then some ⟨x, y, width, height⟩ else none

/-- `Rect.from_edges`, without the constructor assertion (the callers below
establish it where the Python code relies on it). -/
def Rect.fromEdges (l r b t : ℚ) : Rect :=
  ⟨(l + r) / 2, (b + t) / 2, r - l, t - b⟩

/-- `Rect.from_edges` including the `__post_init__` assertion. -/
def fromEdgesChecked (l r b t : ℚ) : Option Rect :=
  mkRect ((l + r) / 2) ((b + t) / 2) (r - l) (t - b)

/-- A `Range` argument of `Rect.__class_getitem__`: either a slice
`start:stop` (with optional start) or a plain number. -/
inductive RangeArg
| slice (start : Option ℚ) (stop : ℚ)
| num (v : ℚ)
deriving DecidableEq, Repr

/-- `rect.py` `_to_start_stop`: a slice gives `(start or 0, stop)`, a number
`v` gives `(-v/2, v/2)`. -/
def toStartStop : RangeArg → ℚ × ℚ
| .slice start stop => (start.getD 0, stop)
| .num v => (-(v / 2), v / 2)

/-- `Rect.__class_getitem__`: slice construction `Rect[x_range, y_range]`,
going through `Rect.from_edges` (and hence the constructor assertion). -/
def classGetItem (xRange yRange : RangeArg) : Option Rect :=
  let horizontal := toStartStop xRange
  let vertical := toStartStop yRange
  fromEdgesChecked horizontal.1 horizontal.2 vertical.1 vertical.2

/-- `BaseRect._stretch_left`: `width -= offset; x += offset / 2`. -/
def Rect.stretch_left (r : Rect) (offset : ℚ) : Rect :=
  { r with width := r.width - offset, x := r.x + offset / 2 }

/-- `BaseRect._stretch_right`: `width += offset; x += offset / 2`. -/
def Rect.stretch_right (r : Rect) (offset : ℚ) : Rect :=
  { r with width := r.width + offset, x := r.x + offset / 2 }

/-- `BaseRect._stretch_bottom`: `height -= offset; y += offset / 2`. -/
def Rect.stretch_bottom (r : Rect) (offset : ℚ) : Rect :=
  { r with height := r.height - offset, y := r.y + offset / 2 }

/-- `BaseRect._stretch_top`: `height += offset; y += offset / 2`. -/
def Rect.stretch_top (r : Rect) (offset : ℚ) : Rect :=
  { r with height := r.height + offset, y := r.y + offset / 2 }

/-- One keyword step of `BaseRect.stretch`, `stretch(left=v)`:
`offset = v - self.left; self._stretch_left(offset)`. -/
def Rect.stretchLeftTo (r : Rect) (v : ℚ) : Rect := r.stretch_left (v - r.left)

/-- `stretch(right=v)`. -/
def Rect.stretchRightTo (r : Rect) (v : ℚ) : Rect := r.stretch_right (v - r.right)

/-- `stretch(bottom=v)`. -/
def Rect.stretchBottomTo (r : Rect) (v : ℚ) : Rect := r.stretch_bottom (v - r.bottom)

/-- `stretch(top=v)`. -/
def Rect.stretchTopTo (r : Rect) (v : ℚ) : Rect := r.stretch_top (v - r.top)

/-- The positional branch of `BaseRect.stretch`: dispatch
`getattr(self, f'_stretch_{handle.name}')(handle.offset)`. -/
def Rect.applyEdgeHandle (r : Rect) (h : EdgeHandle) : Rect :=
  match h.name with
  | .left => r.stretch_left h.offset
  | .right => r.stretch_right h.offset
  | .bottom => r.stretch_bottom h.offset
  | .top => r.stretch_top h.offset

/-- `BaseRect.stretch(*relative)`: every stretch handle is iterated into a
list of edge handles and applied in order. -/
def Rect.stretchRel (r : Rect) (hs : List EdgeHandle) : Rect :=
  hs.foldl Rect.applyEdgeHandle r

/-- `BaseRect.is_inside_of`: all four edges within the other rectangle. -/
def Rect.isInsideOf (r rect : Rect) : Prop :=
  rect.left ≤ r.left ∧ r.right ≤ rect.right ∧
    rect.bottom ≤ r.bottom ∧ r.top ≤ rect.top

instance (r rect : Rect) : Decidable (r.isInsideOf rect) := by
  unfold Rect.isInsideOf; infer_instance

/-- `BaseRect.intersection`: `None` when the clipped edges are empty or
merely touching, otherwise the rectangle of the clipped edges. -/
def Rect.intersection (a rect : Rect) : Option Rect :=
  let l := max a.left rect.left
  let r := min a.right rect.right
  let b := max a.bottom rect.bottom
  let t := min a.top rect.top
  if r ≤ l ∨ t ≤ b then none else some (Rect.fromEdges l r b t)

/-- `BaseRect.union`: the rectangle of the outer edges. -/
def Rect.union (a rect : Rect) : Rect :=
  Rect.fromEdges (min a.left rect.left) (max a.right rect.right)
    (min a.bottom rect.bottom) (max a.top rect.top)

/-- `translate.py` `left` setter: `self.x += value - self.left`. -/
def Rect.set_left (r : Rect) (v : ℚ) : Rect := { r with x := r.x + (v - r.left) }

/-- `translate.py` `right` setter: `self.x += value - self.right`. -/
def Rect.set_right (r : Rect) (v : ℚ) : Rect := { r with x := r.x + (v - r.right) }

/-- `translate.py` `bottom` setter: `self.y += value - self.bottom`. -/
def Rect.set_bottom (r : Rect) (v : ℚ) : Rect := { r with y := r.y + (v - r.bottom) }

/-- `translate.py` `top` setter: `self.y += value - self.top`. -/
def Rect.set_top (r : Rect) (v : ℚ) : Rect := { r with y := r.y + (v - r.top) }

/-- The scalar attributes a `Corner` descriptor or `translate` keyword can
name on a rect: the four edge properties or the raw fields `x`, `y`. -/
inductive ScalarAttr
| left
| right
| bottom
| top
| x
| y
deriving DecidableEq, Repr

/-- `getattr(rect, attr)` for a scalar attribute. -/
def Rect.getAttr (r : Rect) : ScalarAttr → ℚ
| .left => r.left
| .right => r.right
| .bottom => r.bottom
| .top => r.top
| .x => r.x
| .y => r.y

/-- `setattr(rect, attr, v)` for a scalar attribute: the edge setters
translate, the field setters overwrite the coordinate. -/
def Rect.setAttr (r : Rect) : ScalarAttr → ℚ → Rect
| .left, v => r.set_left v
| .right, v => r.set_right v
| .bottom, v => r.set_bottom v
| .top, v => r.set_top v
| .x, v => { r with x := v }
| .y, v => { r with y := v }

/-- The scalar attribute named by an edge handle's `name`. -/
def EdgeName.attr : EdgeName → ScalarAttr
| .left => .left
| .right => .right
| .bottom => .bottom
| .top => .top

/-- `translate.py` `Corner`: a pair of attribute names `(y, x)`. -/
structure Corner where
  y : ScalarAttr
  x : ScalarAttr
deriving DecidableEq, Repr

/-- `Corner.__get__`: read the two attributes as a point. -/
def Rect.getCorner (r : Rect) (c : Corner) : Point :=
  ⟨r.getAttr c.x, r.getAttr c.y⟩

/-- `Corner.__set__`: `setattr(instance, self.x, value.x)` then
`setattr(instance, self.y, value.y)`. -/
def Rect.setCorner (r : Rect) (c : Corner) (p : Point) : Rect :=
  (r.setAttr c.x p.x).setAttr c.y p.y

/-- One keyword argument of `CanTranslate.translate`: a scalar target, a
point target for a corner, or an edge handle target (resolved through
`EdgeHandle.position`). -/
inductive TArg
| num (k : ScalarAttr) (v : ℚ)
| pt (c : Corner) (p : Point)
| hnd (k : ScalarAttr) (h : EdgeHandle)
deriving DecidableEq, Repr

/-- One iteration of the loop in `CanTranslate.translate`. -/
def Rect.applyTArg (r : Rect) : TArg → Rect
| .num k v => r.setAttr k v
| .pt c p => r.setCorner c p
| .hnd k h => r.setAttr k (r.getAttr h.name.attr + h.offset)

/-- `CanTranslate.translate(**absolute)`: apply the keyword assignments in
order. -/
def Rect.translate (r : Rect) (args : List TArg) : Rect :=
  args.foldl Rect.applyTArg r

/-- `group.py` `BaseGroup`: a list of shapes and a cached bounding box.
For the bounding-box bookkeeping only the rectangular extent of each shape
matters (`_update_bbox` and `is_inside_of` read nothing else), so shapes
are modelled by their extent rectangles. -/
structure Group where
  shapes : List Rect
  bbox : Option Rect
deriving DecidableEq, Repr

/-- `BaseGroup._update_bbox`: seed the bbox with the shape's own extent if
it is `None`, then stretch each edge of the bbox outwards to the shape's
edge where the shape sticks out. -/
def updateBbox (bbox : Option Rect) (s : Rect) : Rect :=
  let b0 := match bbox with
    | none => Rect.mk s.x s.y s.width s.height
    | some b => b
  let b1 := if s.left < b0.left then b0.stretchLeftTo s.left else b0
  let b2 := if b1.right < s.right then b1.stretchRightTo s.right else b1
  let b3 := if s.bottom < b2.bottom then b2.stretchBottomTo s.bottom else b2
  if b3.top < s.top then b3.stretchTopTo s.top else b3

/-- `BaseGroup.update`: fold `_update_bbox` over all contained shapes. -/
def Group.update (g : Group) : Group :=
  ⟨g.shapes, g.shapes.foldl (fun bb s => some (updateBbox bb s)) g.bbox⟩

/-- `Group(shapes)`: the dataclass starts with `bbox = None` and
`__post_init__` calls `update()`. -/
def mkGroup (shapes : List Rect) : Group :=
  Group.update ⟨shapes, none⟩

/-- `BaseGroup.append`: append the shape, then `_update_bbox` it. -/
def Group.append (g : Group) (s : Rect) : Group :=
  ⟨g.shapes ++ [s], some (updateBbox g.bbox s)⟩

/-- `shape.is_inside_of(bbox)` against an optional bounding box; a group
whose bbox is `None` contains nothing. -/
def Rect.insideOpt (s : Rect) : Option Rect → Prop
| none => False
| some b => s.isInsideOf b

instance (s : Rect) (bb : Option Rect) : Decidable (s.insideOpt bb) := by
  cases bb <;> unfold Rect.insideOpt <;> infer_instance

/-- The bounding-box invariant of a group: every held shape lies inside the
cached bounding box. -/
def Group.inv (g : Group) : Prop := ∀ s ∈ g.shapes, s.insideOpt g.bbox

instance (g : Group) : Decidable g.inv := by
  unfold Group.inv; infer_instance

/-- A css style value of `canvas.py`: numbers are rendered with a `px`
suffix, strings verbatim. -/
inductive StyleVal
| num (q : ℚ)
| str (s : String)
deriving DecidableEq, Repr

/-- `Html._value`: numbers get a `px` suffix.  (Python prints its numeric
repr; the embedding prints the rational's repr, which is irrelevant to the
claims, all of which compare two renderings.) -/
def StyleVal.render : StyleVal → String
| .num q => toString q ++ "px"
| .str s => s

/-- Python truthiness of a style value (`div.background or default`). -/
def StyleVal.falsy : StyleVal → Bool
| .num q => q = 0
| .str s => s = ""

/-- An ordered style dictionary, as kept by `Html.style` (Python dicts
preserve insertion order). -/
abbrev Style : Type := List (String × StyleVal)

/-- One dict assignment `style[k] = v`: replace in place, else append. -/
def styleSet (style : Style) (k : String) (v : StyleVal) : Style :=
  if style.any (fun kv => kv.1 = k) then
    style.map (fun kv => if kv.1 = k then (k, v) else kv)
  else
    style ++ [(k, v)]

/-- `style.get(k)`. -/
def styleGet (style : Style) (k : String) : Option StyleVal :=
  (style.find? (fun kv => kv.1 = k)).map (fun kv => kv.2)

/-- `canvas.py` `Html`: an element name plus an ordered style dict. -/
structure Html where
  element : String
  style : Style
deriving DecidableEq, Repr

/-- `Html.div(**style)`. -/
def Html.div (style : Style) : Html := ⟨"div", style⟩

/-- `Html.update(**kwargs)` (also models the `__setattr__` style writes). -/
def Html.update (h : Html) (kvs : Style) : Html :=
  { h with style := kvs.foldl (fun st kv => styleSet st kv.1 kv.2) h.style }

/-- `Html.open`: the opening tag; keys are rendered with `_` replaced by
`-` and values through `Html._value`. -/
def Html.openTag (h : Html) : String :=
  "<" ++ h.element ++ " style=\"" ++
    String.intercalate "; "
      (h.style.map (fun kv => kv.1.replace "_" "-" ++ ": " ++ kv.2.render)) ++
    "\">"

/-- `Html.close`: the closing tag. -/
def Html.closeTag (h : Html) : String := "</" ++ h.element ++ ">"

/-- `Html.open_close`. -/
def Html.openClose (h : Html) : String := h.openTag ++ h.closeTag

/-- The user data of a shape as consumed by `Canvas._set_style` via the
default `style_getter` (which returns it unchanged): `None`, a color
string, or a dict of css attributes. -/
def UserData := Option (String ⊕ Style)

/-- `Canvas._set_style(div, user_data, prefix, default)`: a string becomes
the background, a dict is filtered by the key prefix and merged, and a
falsy background falls back to the default color. -/
def setStyleOn (div : Html) (ud : UserData) (pre : String) (default : String) : Html :=
  let styled := match ud with
    | none => div
    | some (Sum.inl s) => div.update [("background", StyleVal.str s)]
    | some (Sum.inr kvs) =>
        div.update (kvs.filter (fun kv => kv.1.startsWith pre))
  match styleGet styled.style "background" with
  | none => styled.update [("background", StyleVal.str default)]
  | some v =>
      if v.falsy then styled.update [("background", StyleVal.str default)]
      else styled

/-- A shape held by a `Canvas` (`canvas.py`'s `Shape` union): a `Rect`, a
`Segment` (a rect plus the `is_horizontal` flag of its direction), a
`Group` of nested shapes, or anything else (the branch that raises
`ValueError`, tagged with the class name). -/
inductive Shape
| rect (r : Rect) (ud : UserData)
| seg (r : Rect) (horizontal : Bool) (ud : UserData)
| group (shapes : List Shape)
| other (clsName : String)

/-- `canvas.py` `Canvas`: the fields of `__init__` that rendering reads. -/
structure Canvas where
  width : ℚ
  height : ℚ
  scale : ℚ
  defaultColor : String
  defaultLineColor : String

/-- `Canvas(width, height, scale)` with the default colors `'black'` and
`'white'`. -/
def mkCanvas (width height scale : ℚ) : Canvas :=
  ⟨width, height, scale, "black", "white"⟩

/-- `Canvas._rect`: the strings yielded for one `Rect` or `Segment`
(`horizontal = none` for a plain rect, `some h` for a segment whose
direction has `is_horizontal = h`). -/
def rectStrings (cv : Canvas) (r : Rect) (horizontal : Option Bool)
    (ud : UserData) : List String :=
  let l := (r.left + cv.width / 2) * cv.scale
  let b := (r.bottom + cv.height / 2) * cv.scale
  let w := r.width * cv.scale
  let h := r.height * cv.scale
  let div := Html.div
    [("position", StyleVal.str "absolute"), ("left", StyleVal.num l),
     ("bottom", StyleVal.num b), ("width", StyleVal.num w),
     ("height", StyleVal.num h)]
  let div := div.update [("box_sizing", StyleVal.str "border-box")]
  let div := setStyleOn div ud "" cv.defaultColor
  match horizontal with
  | none => [div.openTag, "", div.closeTag]
  | some hor =>
      let div := div.update
        [("display", StyleVal.str "flex"), ("align_items", StyleVal.str "center"),
         ("justify_content", StyleVal.str "center")]
      let line := Html.div []
      let line := if hor then
          line.update [("width", StyleVal.str "100%"), ("height", StyleVal.num 2)]
        else
          line.update [("width", StyleVal.num 2), ("height", StyleVal.str "100%")]
      let line := setStyleOn line ud "path" cv.defaultLineColor
      [div.openTag, line.openClose, div.closeTag]

mutual

/-- One iteration of the loop in `Canvas._shapes`: a rect or segment yields
its div strings, a group recurses into its children, anything else raises
`ValueError`. -/
def shapeStrings (cv : Canvas) : Shape → Except String (List String)
| .rect r ud => .ok (rectStrings cv r none ud)
| .seg r hor ud => .ok (rectStrings cv r (some hor) ud)
| .group ss => shapesList cv ss
| .other clsName =>
    .error ("cannot draw unknown shape of class " ++ clsName)

/-- `Canvas._shapes` over a list of shapes, concatenating the yielded
strings; an error anywhere aborts the whole rendering, as the exception
does when `_repr_html_` drains the generator. -/
def shapesList (cv : Canvas) : List Shape → Except String (List String)
| [] => .ok []
| s :: rest => do
    let a ← shapeStrings cv s
    let b ← shapesList cv rest
    .ok (a ++ b)

end

/-- The canvas container div of `Canvas.__init__`. -/
def canvasContainer (cv : Canvas) : Html :=
  Html.div
    [("position", StyleVal.str "relative"),
     ("width", StyleVal.num (cv.width * cv.scale)),
     ("height", StyleVal.num (cv.height * cv.scale))]

/-- The four dotted axis divs of `Canvas.__init__` (each `setattr` appends
a style entry). -/
def canvasAxes (cv : Canvas) : List Html :=
  let base := Html.div
    [("position", StyleVal.str "absolute"),
     ("width", StyleVal.num (cv.width * cv.scale / 2)),
     ("height", StyleVal.num (cv.height * cv.scale / 2)),
     ("border", StyleVal.str "1px dotted black"),
     ("box_sizing", StyleVal.str "border-box")]
  [base.update [("left", StyleVal.num 0), ("bottom", StyleVal.num 0)],
   base.update [("right", StyleVal.num 0), ("bottom", StyleVal.num 0)],
   base.update [("left", StyleVal.num 0), ("top", StyleVal.num 0)],
   base.update [("right", StyleVal.num 0), ("top", StyleVal.num 0)]]

/-- `Canvas._repr_html_` / `Canvas.html()` on a canvas holding `shapes`:
container opening tag, the four axes, the shape strings, the closing tag,
joined by newlines.  The `ValueError` of `_shapes` propagates. -/
def canvasHtml (cv : Canvas) (shapes : List Shape) : Except String String := do
  let body ← shapesList cv shapes
  .ok (String.intercalate "\n"
    ((canvasContainer cv).openTag ::
      ((canvasAxes cv).map Html.openClose ++ body ++
        [(canvasContainer cv).closeTag])))

/-! ### Helper lemmas about rectangle edges -/

lemma fromEdges_left (l r b t : ℚ) : (Rect.fromEdges l r b t).left = l := by
  simp only [Rect.fromEdges, Rect.left]; ring

lemma fromEdges_right (l r b t : ℚ) : (Rect.fromEdges l r b t).right = r := by
  simp only [Rect.fromEdges, Rect.right]; ring

lemma fromEdges_bottom (l r b t : ℚ) : (Rect.fromEdges l r b t).bottom = b := by
  simp only [Rect.fromEdges, Rect.bottom]; ring

lemma fromEdges_top (l r b t : ℚ) : (Rect.fromEdges l r b t).top = t := by
  simp only [Rect.fromEdges, Rect.top]; ring

lemma stretchLeftTo_left (r : Rect) (v : ℚ) : (r.stretchLeftTo v).left = v := by
  simp only [Rect.stretchLeftTo, Rect.stretch_left, Rect.left]; ring

lemma stretchLeftTo_right (r : Rect) (v : ℚ) : (r.stretchLeftTo v).right = r.right := by
  simp only [Rect.stretchLeftTo, Rect.stretch_left, Rect.left, Rect.right]; ring

lemma stretchLeftTo_bottom (r : Rect) (v : ℚ) : (r.stretchLeftTo v).bottom = r.bottom := rfl

lemma stretchLeftTo_top (r : Rect) (v : ℚ) : (r.stretchLeftTo v).top = r.top := rfl

lemma stretchRightTo_right (r : Rect) (v : ℚ) : (r.stretchRightTo v).right = v := by
  simp only [Rect.stretchRightTo, Rect.stretch_right, Rect.right]; ring

lemma stretchRightTo_left (r : Rect) (v : ℚ) : (r.stretchRightTo v).left = r.left := by
  simp only [Rect.stretchRightTo, Rect.stretch_right, Rect.left, Rect.right]; ring

lemma stretchRightTo_bottom (r : Rect) (v : ℚ) : (r.stretchRightTo v).bottom = r.bottom := rfl

lemma stretchRightTo_top (r : Rect) (v : ℚ) : (r.stretchRightTo v).top = r.top := rfl

lemma stretchBottomTo_bottom (r : Rect) (v : ℚ) : (r.stretchBottomTo v).bottom = v := by
  simp only [Rect.stretchBottomTo, Rect.stretch_bottom, Rect.bottom]; ring

lemma stretchBottomTo_top (r : Rect) (v : ℚ) : (r.stretchBottomTo v).top = r.top := by
  simp only [Rect.stretchBottomTo, Rect.stretch_bottom, Rect.bottom, Rect.top]; ring

lemma stretchBottomTo_left (r : Rect) (v : ℚ) : (r.stretchBottomTo v).left = r.left := rfl

lemma stretchBottomTo_right (r : Rect) (v : ℚ) : (r.stretchBottomTo v).right = r.right := rfl

lemma stretchTopTo_top (r : Rect) (v : ℚ) : (r.stretchTopTo v).top = v := by
  simp only [Rect.stretchTopTo, Rect.stretch_top, Rect.top]; ring

lemma stretchTopTo_bottom (r : Rect) (v : ℚ) : (r.stretchTopTo v).bottom = r.bottom := by
  simp only [Rect.stretchTopTo, Rect.stretch_top, Rect.bottom, Rect.top]; ring

lemma stretchTopTo_left (r : Rect) (v : ℚ) : (r.stretchTopTo v).left = r.left := rfl

lemma stretchTopTo_right (r : Rect) (v : ℚ) : (r.stretchTopTo v).right = r.right := rfl

lemma isInsideOf_refl (r : Rect) : r.isInsideOf r :=
  ⟨le_refl _, le_refl _, le_refl _, le_refl _⟩

lemma isInsideOf_trans {a b c : Rect} (h1 : a.isInsideOf b) (h2 : b.isInsideOf c) :
    a.isInsideOf c :=
  ⟨le_trans h2.1 h1.1, le_trans h1.2.1 h2.2.1,
   le_trans h2.2.2.1 h1.2.2.1, le_trans h1.2.2.2 h2.2.2.2⟩

/-! ### Helper lemmas about the bounding-box bookkeeping -/

lemma updateBbox_contains_shape (bb : Option Rect) (s : Rect) :
    s.isInsideOf (updateBbox bb s) := by
  have hseed : ∀ b0 : Rect,
      (let b1 := if s.left < b0.left then b0.stretchLeftTo s.left else b0
       let b2 := if b1.right < s.right then b1.stretchRightTo s.right else b1
       let b3 := if s.bottom < b2.bottom then b2.stretchBottomTo s.bottom else b2
       let b4 := if b3.top < s.top then b3.stretchTopTo s.top else b3
       b4.left ≤ s.left ∧ s.right ≤ b4.right ∧ b4.bottom ≤ s.bottom ∧ s.top ≤ b4.top ∧
         b4.left ≤ b0.left ∧ b0.right ≤ b4.right ∧ b4.bottom ≤ b0.bottom ∧
         b0.top ≤ b4.top) := by
    intro b0
    dsimp only
    split_ifs with h1 h2 h3 h4 <;>
      simp only [stretchLeftTo_left, stretchLeftTo_right, stretchLeftTo_bottom,
        stretchLeftTo_top, stretchRightTo_left, stretchRightTo_right,
        stretchRightTo_bottom, stretchRightTo_top, stretchBottomTo_left,
        stretchBottomTo_right, stretchBottomTo_bottom, stretchBottomTo_top,
        stretchTopTo_left, stretchTopTo_right, stretchTopTo_bottom,
        stretchTopTo_top] at * <;>
      refine ⟨by linarith, by linarith, by linarith, by linarith, by linarith,
        by linarith, by linarith, by linarith⟩
  cases bb with
  | none =>
      have h := hseed (Rect.mk s.x s.y s.width s.height)
      exact ⟨h.1, h.2.1, h.2.2.1, h.2.2.2.1⟩
  | some b =>
      have h := hseed b
      exact ⟨h.1, h.2.1, h.2.2.1, h.2.2.2.1⟩

lemma updateBbox_contains_box (b : Rect) (s : Rect) :
    b.isInsideOf (updateBbox (some b) s) := by
  have hseed : ∀ b0 : Rect,
      (let b1 := if s.left < b0.left then b0.stretchLeftTo s.left else b0
       let b2 := if b1.right < s.right then b1.stretchRightTo s.right else b1
       let b3 := if s.bottom < b2.bottom then b2.stretchBottomTo s.bottom else b2
       let b4 := if b3.top < s.top then b3.stretchTopTo s.top else b3
       b4.left ≤ b0.left ∧ b0.right ≤ b4.right ∧ b4.bottom ≤ b0.bottom ∧
         b0.top ≤ b4.top) := by
    intro b0
    dsimp only
    split_ifs with h1 h2 h3 h4 <;>
      simp only [stretchLeftTo_left, stretchLeftTo_right, stretchLeftTo_bottom,
        stretchLeftTo_top, stretchRightTo_left, stretchRightTo_right,
        stretchRightTo_bottom, stretchRightTo_top, stretchBottomTo_left,
        stretchBottomTo_right, stretchBottomTo_bottom, stretchBottomTo_top,
        stretchTopTo_left, stretchTopTo_right, stretchTopTo_bottom,
        stretchTopTo_top] at * <;>
      refine ⟨by linarith, by linarith, by linarith, by linarith⟩
  exact hseed b

/-- The bbox fold of `Group.update`. -/
def bbStep (bb : Option Rect) (s : Rect) : Option Rect := some (updateBbox bb s)

lemma foldl_bbStep_some (l : List Rect) : ∀ b : Rect,
    ∃ b2, l.foldl bbStep (some b) = some b2 ∧ b.isInsideOf b2 := by
  induction l with
  | nil => exact fun b => ⟨b, rfl, isInsideOf_refl b⟩
  | cons s t ih =>
      intro b
      obtain ⟨b2, heq, hin⟩ := ih (updateBbox (some b) s)
      exact ⟨b2, heq, isInsideOf_trans (updateBbox_contains_box b s) hin⟩

lemma foldl_bbStep_shapes (l : List Rect) : ∀ (bb : Option Rect), ∀ s ∈ l,
    ∃ b2, l.foldl bbStep bb = some b2 ∧ s.isInsideOf b2 := by
  induction l with
  | nil => intro bb s hs; cases hs
  | cons a t ih =>
      intro bb s hs
      rcases List.mem_cons.mp hs with h | h
      · subst h
        obtain ⟨b2, heq, hin⟩ := foldl_bbStep_some t (updateBbox bb s)
        exact ⟨b2, heq, isInsideOf_trans (updateBbox_contains_shape bb s) hin⟩
      · exact ih (bbStep bb a) s h

lemma group_update_bbox_eq (g : Group) :
    g.update.bbox = g.shapes.foldl bbStep g.bbox := rfl

/-! ### Helper lemmas about translation and handles -/

lemma setAttr_width (r : Rect) (k : ScalarAttr) (v : ℚ) :
    (r.setAttr k v).width = r.width := by
  cases k <;> rfl

lemma setAttr_height (r : Rect) (k : ScalarAttr) (v : ℚ) :
    (r.setAttr k v).height = r.height := by
  cases k <;> rfl

lemma applyTArg_width (r : Rect) (t : TArg) : (r.applyTArg t).width = r.width := by
  cases t <;> simp only [Rect.applyTArg, Rect.setCorner, setAttr_width]

lemma applyTArg_height (r : Rect) (t : TArg) : (r.applyTArg t).height = r.height := by
  cases t <;> simp only [Rect.applyTArg, Rect.setCorner, setAttr_height]

lemma translate_width : ∀ (args : List TArg) (r : Rect),
    (r.translate args).width = r.width := by
  intro args
  induction args with
  | nil => intro r; rfl
  | cons a t ih =>
      intro r
      have hstep : Rect.translate r (a :: t) = Rect.translate (r.applyTArg a) t := rfl
      rw [hstep, ih, applyTArg_width]

lemma translate_height : ∀ (args : List TArg) (r : Rect),
    (r.translate args).height = r.height := by
  intro args
  induction args with
  | nil => intro r; rfl
  | cons a t ih =>
      intro r
      have hstep : Rect.translate r (a :: t) = Rect.translate (r.applyTArg a) t := rfl
      rw [hstep, ih, applyTArg_height]

lemma edge_sub_eq_add_neg (h : EdgeHandle) (a : ℚ) : h.sub a = h.add (-a) := by
  simp only [EdgeHandle.sub, EdgeHandle.add, EdgeHandle.mk.injEq]
  refine ⟨trivial, trivial, by ring⟩

lemma edge_add_add (h : EdgeHandle) (a b : ℚ) : (h.add a).add b = h.add (a + b) := by
  simp only [EdgeHandle.add, EdgeHandle.mk.injEq]
  refine ⟨trivial, trivial, by ring⟩

lemma map_sub_eq_map_add_neg (a : ℚ) : ∀ l : List EdgeHandle,
    l.map (fun e => e.sub a) = l.map (fun e => e.add (-a)) := by
  intro l
  induction l with
  | nil => rfl
  | cons e t ih => simp only [List.map_cons, ih, edge_sub_eq_add_neg]

lemma map_add_add (a b : ℚ) : ∀ l : List EdgeHandle,
    (l.map (fun e => e.add a)).map (fun e => e.add b) =
      l.map (fun e => e.add (a + b)) := by
  intro l
  induction l with
  | nil => rfl
  | cons e t ih => simp only [List.map_cons, ih, edge_add_add]

/-! ### The claims -/

/-- Claim C1: `a.intersection(b)` returns `None` exactly when
`max(a.left, b.left) >= min(a.right, b.right)` or
`max(a.bottom, b.bottom) >= min(a.top, b.top)` (touching rectangles do not
intersect); otherwise it returns the rectangle whose edges are those
max/min clipped coordinates. -/
theorem c1_intersection_characterization (a b : Rect) :
    (a.intersection b = none ↔
      min a.right b.right ≤ max a.left b.left ∨
        min a.top b.top ≤ max a.bottom b.bottom)
    ∧ ∀ c, a.intersection b = some c →
        c.left = max a.left b.left ∧ c.right = min a.right b.right ∧
          c.bottom = max a.bottom b.bottom ∧ c.top = min a.top b.top := by
  constructor
  · simp only [Rect.intersection]
    split_ifs with h
    · simpa using h
    · simpa using h
  · intro c hc
    simp only [Rect.intersection] at hc
    split_ifs at hc with h
    obtain rfl := (Option.some.injEq _ _).mp hc
    exact ⟨fromEdges_left _ _ _ _, fromEdges_right _ _ _ _,
      fromEdges_bottom _ _ _ _, fromEdges_top _ _ _ _⟩

/-- Claim C2: an absolute stretch `stretch(left=v)` moves the left edge to
`v` and leaves the right, bottom and top edges unchanged, and symmetrically
for the other edges; a relative stretch with an edge handle plus a positive
number moves that edge away from the center by that number while leaving
the opposite edge (and the perpendicular edges) unchanged. -/
theorem c2_stretch_semantics (r : Rect) (v a : ℚ) (_ha : 0 < a) :
    ((r.stretchLeftTo v).left = v ∧ (r.stretchLeftTo v).right = r.right ∧
      (r.stretchLeftTo v).bottom = r.bottom ∧ (r.stretchLeftTo v).top = r.top)
    ∧ ((r.stretchRightTo v).right = v ∧ (r.stretchRightTo v).left = r.left ∧
      (r.stretchRightTo v).bottom = r.bottom ∧ (r.stretchRightTo v).top = r.top)
    ∧ ((r.stretchBottomTo v).bottom = v ∧ (r.stretchBottomTo v).top = r.top ∧
      (r.stretchBottomTo v).left = r.left ∧ (r.stretchBottomTo v).right = r.right)
    ∧ ((r.stretchTopTo v).top = v ∧ (r.stretchTopTo v).bottom = r.bottom ∧
      (r.stretchTopTo v).left = r.left ∧ (r.stretchTopTo v).right = r.right)
    ∧ ((r.stretchRel [Handles.left.add a]).left = r.left - a ∧
      (r.stretchRel [Handles.left.add a]).right = r.right ∧
      (r.stretchRel [Handles.left.add a]).bottom = r.bottom ∧
      (r.stretchRel [Handles.left.add a]).top = r.top)
    ∧ ((r.stretchRel [Handles.right.add a]).right = r.right + a ∧
      (r.stretchRel [Handles.right.add a]).left = r.left ∧
      (r.stretchRel [Handles.right.add a]).bottom = r.bottom ∧
      (r.stretchRel [Handles.right.add a]).top = r.top)
    ∧ ((r.stretchRel [Handles.bottom.add a]).bottom = r.bottom - a ∧
      (r.stretchRel [Handles.bottom.add a]).top = r.top ∧
      (r.stretchRel [Handles.bottom.add a]).left = r.left ∧
      (r.stretchRel [Handles.bottom.add a]).right = r.right)
    ∧ ((r.stretchRel [Handles.top.add a]).top = r.top + a ∧
      (r.stretchRel [Handles.top.add a]).bottom = r.bottom ∧
      (r.stretchRel [Handles.top.add a]).left = r.left ∧
      (r.stretchRel [Handles.top.add a]).right = r.right) := by
  refine ⟨⟨stretchLeftTo_left r v, stretchLeftTo_right r v, rfl, rfl⟩,
    ⟨stretchRightTo_right r v, stretchRightTo_left r v, rfl, rfl⟩,
    ⟨stretchBottomTo_bottom r v, stretchBottomTo_top r v, rfl, rfl⟩,
    ⟨stretchTopTo_top r v, stretchTopTo_bottom r v, rfl, rfl⟩,
    ⟨?_, ?_, rfl, rfl⟩, ⟨?_, ?_, rfl, rfl⟩, ⟨?_, ?_, rfl, rfl⟩,
    ⟨?_, ?_, rfl, rfl⟩⟩ <;>
  · simp only [Rect.stretchRel, List.foldl_cons, List.foldl_nil, Handles.left,
      Handles.right, Handles.bottom, Handles.top, EdgeHandle.add,
      Rect.applyEdgeHandle, Rect.stretch_left, Rect.stretch_right,
      Rect.stretch_bottom, Rect.stretch_top, Rect.left, Rect.right,
      Rect.bottom, Rect.top]
    ring

/-- Witness for C2 at the docstring example `Rect[2:4, 4:6]`, `v = 0`,
`a = 1`: the hypothesis `0 < 1` holds and the stretched left edge lands on
the target. -/
theorem c2_stretch_semantics_witness :
    (0 : ℚ) < 1 ∧ ((Rect.fromEdges 2 4 4 6).stretchLeftTo 0).left = 0 ∧
      ((Rect.fromEdges 2 4 4 6).stretchRel [Handles.left.add 1]).left =
        (Rect.fromEdges 2 4 4 6).left - 1 :=
  ⟨by decide,
    (c2_stretch_semantics (Rect.fromEdges 2 4 4 6) 0 1 (by decide)).1.1,
    (c2_stretch_semantics (Rect.fromEdges 2 4 4 6) 0 1 (by decide)).2.2.2.2.1.1⟩

/-- Claim C5: for `l <= r` and `b <= t`, `Rect.from_edges(l, r, b, t)`
constructs successfully (the size assertion holds) and the resulting
rectangle's edges are exactly `l`, `r`, `b`, `t`; the slice construction
`Rect[l:r, b:t]` produces the same rectangle. -/
theorem c5_from_edges_roundtrip (l r b t : ℚ) (hlr : l ≤ r) (hbt : b ≤ t) :
    fromEdgesChecked l r b t = some (Rect.fromEdges l r b t)
    ∧ (Rect.fromEdges l r b t).left = l ∧ (Rect.fromEdges l r b t).right = r
    ∧ (Rect.fromEdges l r b t).bottom = b ∧ (Rect.fromEdges l r b t).top = t
    ∧ classGetItem (RangeArg.slice (some l) r) (RangeArg.slice (some b) t) =
        fromEdgesChecked l r b t := by
  refine ⟨?_, fromEdges_left l r b t, fromEdges_right l r b t,
    fromEdges_bottom l r b t, fromEdges_top l r b t, rfl⟩
  simp only [fromEdgesChecked, mkRect, Rect.fromEdges]
  rw [if_pos ⟨by linarith, by linarith⟩]

/-- Witness for C5 at the docstring example `Rect.from_edges(1, 3, 2, 4)`. -/
theorem c5_from_edges_roundtrip_witness :
    (1 : ℚ) ≤ 3 ∧ (2 : ℚ) ≤ 4 ∧
      fromEdgesChecked 1 3 2 4 = some (Rect.fromEdges 1 3 2 4) ∧
      (Rect.fromEdges 1 3 2 4).left = 1 :=
  ⟨by decide, by decide, (c5_from_edges_roundtrip 1 3 2 4 (by decide) (by decide)).1,
    (c5_from_edges_roundtrip 1 3 2 4 (by decide) (by decide)).2.1⟩

/-- Claim C6: assigning an edge translates the whole rectangle: the edge
lands on the assigned value, `width` and `height` are unchanged and the
opposite edge moves by the same amount; `translate(...)` and corner
assignment change only the position, never the size. -/
theorem c6_edge_assignment_translates (r : Rect) (v : ℚ) :
    ((r.set_left v).left = v ∧ (r.set_left v).width = r.width ∧
      (r.set_left v).height = r.height ∧
      (r.set_left v).right = r.right + (v - r.left))
    ∧ ((r.set_right v).right = v ∧ (r.set_right v).width = r.width ∧
      (r.set_right v).height = r.height ∧
      (r.set_right v).left = r.left + (v - r.right))
    ∧ ((r.set_bottom v).bottom = v ∧ (r.set_bottom v).width = r.width ∧
      (r.set_bottom v).height = r.height ∧
      (r.set_bottom v).top = r.top + (v - r.bottom))
    ∧ ((r.set_top v).top = v ∧ (r.set_top v).width = r.width ∧
      (r.set_top v).height = r.height ∧
      (r.set_top v).bottom = r.bottom + (v - r.top))
    ∧ (∀ (c : Corner) (p : Point),
      (r.setCorner c p).width = r.width ∧ (r.setCorner c p).height = r.height)
    ∧ (∀ args : List TArg,
      (r.translate args).width = r.width ∧ (r.translate args).height = r.height) := by
  refine ⟨⟨?_, rfl, rfl, ?_⟩, ⟨?_, rfl, rfl, ?_⟩, ⟨?_, rfl, rfl, ?_⟩,
    ⟨?_, rfl, rfl, ?_⟩,
    fun c p => ⟨by simp only [Rect.setCorner, setAttr_width],
      by simp only [Rect.setCorner, setAttr_height]⟩,
    fun args => ⟨translate_width args r, translate_height args r⟩⟩ <;>
  · simp only [Rect.set_left, Rect.set_right, Rect.set_bottom, Rect.set_top,
      Rect.left, Rect.right, Rect.bottom, Rect.top]
    ring

/-- Claim C7: the handle offset algebra: `(h + a).offset` is
`h.offset + h.factor * a`, subtraction is addition of the negation,
addition is associative in the offset, `top + 10` stores `+10` while
`bottom + 10` stores `-10`, and the corner and multi-edge handles obey the
same laws componentwise. -/
theorem c7_handle_offset_algebra :
    (∀ (h : EdgeHandle) (a b : ℚ),
      (h.add a).offset = h.offset + h.factor * a ∧
      (h.add a).name = h.name ∧ (h.add a).factor = h.factor ∧
      h.sub a = h.add (-a) ∧ (h.add a).add b = h.add (a + b))
    ∧ (Handles.top.add 10).offset = 10
    ∧ (Handles.bottom.add 10).offset = -10
    ∧ (∀ (ph : PointHandle) (p q : Point),
      (ph.addP p).x = ph.x.add p.x ∧ (ph.addP p).y = ph.y.add p.y ∧
      ph.subP p = ph.addP p.neg ∧ (ph.addP p).addP q = ph.addP (p.add q))
    ∧ (∀ (ph : PointHandle) (a : ℚ), ph.addN a = ph.addP ⟨a, a⟩)
    ∧ (∀ (mh : MultiHandle) (a b : ℚ),
      mh.sub a = mh.add (-a) ∧ (mh.add a).add b = mh.add (a + b)) := by
  refine ⟨fun h a b => ⟨rfl, rfl, rfl, edge_sub_eq_add_neg h a, edge_add_add h a b⟩,
    by norm_num [Handles.top, EdgeHandle.add],
    by norm_num [Handles.bottom, EdgeHandle.add],
    fun ph p q => ⟨rfl, rfl, ?_, ?_⟩, fun ph a => rfl,
    fun mh a b => ⟨?_, ?_⟩⟩
  · simp only [PointHandle.subP, PointHandle.addP, Point.neg,
      edge_sub_eq_add_neg]
  · simp only [PointHandle.addP, Point.add, edge_add_add]
  · simp only [MultiHandle.sub, MultiHandle.add, MultiHandle.mk.injEq,
      map_sub_eq_map_add_neg]
  · simp only [MultiHandle.add, MultiHandle.mk.injEq, map_add_add]

/-- Claim C8: point arithmetic is componentwise and produces new points:
addition, subtraction, scalar multiplication, negation and transposition
act on the coordinates exactly componentwise.  (In the pure embedding the
operands are values, so their immutability is intrinsic; the `TypeError`
on item assignment is Python `NamedTuple` behaviour outside the model.) -/
theorem c8_point_componentwise (p q : Point) (c : ℚ) :
    p.add q = ⟨p.x + q.x, p.y + q.y⟩ ∧ p.sub q = ⟨p.x - q.x, p.y - q.y⟩ ∧
    p.mul c = ⟨p.x * c, p.y * c⟩ ∧ p.neg = ⟨-p.x, -p.y⟩ ∧
    p.yx = ⟨p.y, p.x⟩ :=
  ⟨rfl, rfl, rfl, rfl, rfl⟩

/-- Claim C9: the nonnegative-size assertion fires only in the
constructor: `Rect(x, y, w, h)` raises exactly when `w < 0` or `h < 0`,
while `stretch` re-runs no check, so `Rect[0:2, 0:2].stretch(left=10)`
silently yields a rectangle of width `-8`. -/
theorem c9_size_check_only_at_construction (x y w h : ℚ) :
    (mkRect x y w h = none ↔ w < 0 ∨ h < 0)
    ∧ classGetItem (RangeArg.slice (some 0) 2) (RangeArg.slice (some 0) 2) =
        some (Rect.fromEdges 0 2 0 2)
    ∧ ((Rect.fromEdges 0 2 0 2).stretchLeftTo 10).width = -8
    ∧ ((Rect.fromEdges 0 2 0 2).stretchLeftTo 10).width < 0
    ∧ ((Rect.fromEdges 0 2 0 2).stretchLeftTo 10).left = 10 := by
  refine ⟨?_,
    by norm_num [classGetItem, toStartStop, fromEdgesChecked, mkRect,
      Rect.fromEdges, Option.getD],
    by norm_num [Rect.stretchLeftTo, Rect.stretch_left, Rect.fromEdges, Rect.left],
    by norm_num [Rect.stretchLeftTo, Rect.stretch_left, Rect.fromEdges, Rect.left],
    by norm_num [Rect.stretchLeftTo, Rect.stretch_left, Rect.fromEdges, Rect.left]⟩
  simp only [mkRect, ite_eq_right_iff]
  constructor
  · intro hif
    by_contra hcon
    push_neg at hcon
    exact Option.some_ne_none _ (hif ⟨hcon.1, hcon.2⟩) |>.elim
  · intro hneg hpos
    rcases hneg with hw | hh
    · exact absurd hpos.1 (not_le.mpr hw)
    · exact absurd hpos.2 (not_le.mpr hh)

/-- Claim C3: for a `Group` built from a list of shapes (whose sizes pass
the constructor assertion, i.e. they were not mutated into invalid
shapes), and after every `append` of a further such shape, every shape in
`group.shapes` is inside the group's bounding box; a `Group` with no
shapes has `bbox` `None`. -/
theorem c3_group_bbox_invariant (shapes : List Rect) (g : Group) (t : Rect)
    (_hshapes : ∀ u ∈ shapes, u.sizeOk) (_ht : t.sizeOk) (hg : g.inv) :
    (mkGroup shapes).inv ∧ (mkGroup ([] : List Rect)).bbox = none ∧
      (g.append t).inv := by
  refine ⟨?_, rfl, ?_⟩
  · intro s hs
    obtain ⟨b2, heq, hin⟩ := foldl_bbStep_shapes shapes none s hs
    show s.insideOpt ((mkGroup shapes).bbox)
    have hbb : (mkGroup shapes).bbox = shapes.foldl bbStep none := rfl
    rw [hbb, heq]
    exact hin
  · intro s hs
    have hsplit : s ∈ g.shapes ∨ s ∈ [t] := List.mem_append.mp hs
    show s.insideOpt (some (updateBbox g.bbox t))
    rcases hsplit with hmem | hmem
    · have hold := hg s hmem
      cases hbb : g.bbox with
      | none => rw [hbb] at hold; exact hold.elim
      | some b =>
          rw [hbb] at hold
          exact isInsideOf_trans hold (updateBbox_contains_box b t)
    · have hst : s = t := by simpa using hmem
      subst hst
      exact updateBbox_contains_shape g.bbox s

/-- Witness for C3 on a one-element group and a concrete append. -/
theorem c3_group_bbox_invariant_witness :
    (∀ u ∈ [Rect.mk 0 0 0 0], u.sizeOk) ∧ (Rect.mk 1 1 0 0).sizeOk ∧
      (Group.mk [Rect.mk 0 0 0 0] (some (Rect.mk 0 0 0 0))).inv ∧
      ((mkGroup [Rect.mk 0 0 0 0]).inv ∧
        (mkGroup ([] : List Rect)).bbox = none ∧
        ((Group.mk [Rect.mk 0 0 0 0] (some (Rect.mk 0 0 0 0))).append
          (Rect.mk 1 1 0 0)).inv) :=
  ⟨by decide, by decide,
    by simp [Group.inv, Rect.insideOpt, Rect.isInsideOf, Rect.left, Rect.right,
      Rect.bottom, Rect.top],
    c3_group_bbox_invariant [Rect.mk 0 0 0 0]
      (Group.mk [Rect.mk 0 0 0 0] (some (Rect.mk 0 0 0 0))) (Rect.mk 1 1 0 0)
      (by decide) (by decide)
      (by simp [Group.inv, Rect.insideOpt, Rect.isInsideOf, Rect.left,
        Rect.right, Rect.bottom, Rect.top])⟩

/-- Claim C10: `Group.update` never shrinks the bounding box: when the
bbox is not `None`, the bbox after `update()` contains the bbox before
(each edge only moves outward or stays); concretely, if the single shape
of a group was shrunk inward after being added, `update()` keeps the old,
strictly larger bbox rather than the tight bounding box of the current
shapes. -/
theorem c10_update_never_shrinks (g : Group) (b : Rect) (hb : g.bbox = some b) :
    (∃ b2, g.update.bbox = some b2 ∧ b.isInsideOf b2)
    ∧ (Group.update
        (Group.mk [Rect.mk 0 0 1 1] (some (Rect.mk 0 0 2 2)))).bbox =
          some (Rect.mk 0 0 2 2)
    ∧ (mkGroup [Rect.mk 0 0 1 1]).bbox = some (Rect.mk 0 0 1 1)
    ∧ (Rect.mk 0 0 1 1).right < (Rect.mk 0 0 2 2).right := by
  refine ⟨?_, ?_, ?_, by norm_num [Rect.right]⟩
  · rw [group_update_bbox_eq, hb]
    exact foldl_bbStep_some g.shapes b
  · show some (updateBbox (some (Rect.mk 0 0 2 2)) (Rect.mk 0 0 1 1)) =
      some (Rect.mk 0 0 2 2)
    norm_num [updateBbox, Rect.left, Rect.right, Rect.bottom, Rect.top]
  · show some (updateBbox none (Rect.mk 0 0 1 1)) = some (Rect.mk 0 0 1 1)
    norm_num [updateBbox, Rect.left, Rect.right, Rect.bottom, Rect.top]

/-- Witness for C10 on a group holding a shrunk shape and the stale,
larger bbox. -/
theorem c10_update_never_shrinks_witness :
    (Group.mk [Rect.mk 0 0 1 1] (some (Rect.mk 0 0 2 2))).bbox =
        some (Rect.mk 0 0 2 2) ∧
      ∃ b2, (Group.update
        (Group.mk [Rect.mk 0 0 1 1] (some (Rect.mk 0 0 2 2)))).bbox =
          some b2 ∧ (Rect.mk 0 0 2 2).isInsideOf b2 :=
  ⟨rfl,
    (c10_update_never_shrinks
      (Group.mk [Rect.mk 0 0 1 1] (some (Rect.mk 0 0 2 2)))
      (Rect.mk 0 0 2 2) rfl).1⟩

/-! ### Helper lemmas about canvas rendering -/

lemma shapesList_append (cv : Canvas) (xs ys : List Shape) :
    shapesList cv (xs ++ ys) = (do
      let a ← shapesList cv xs
      let b ← shapesList cv ys
      Except.ok (a ++ b)) := by
  induction xs with
  | nil =>
      simp only [List.nil_append, shapesList]
      cases shapesList cv ys <;> rfl
  | cons s t ih =>
      simp only [List.cons_append, shapesList, List.append_eq]
      rw [ih]
      cases hs : shapeStrings cv s with
      | error e => rfl
      | ok a =>
          cases ht2 : shapesList cv t with
          | error e => rfl
          | ok b =>
              cases hy : shapesList cv ys with
              | error e => rfl
              | ok c =>
                  show Except.ok (a ++ (b ++ c)) =
                    (Except.ok ((a ++ b) ++ c) : Except String (List String))
                  rw [List.append_assoc]

lemma shapesList_group_cons (cv : Canvas) (ss rest : List Shape) :
    shapesList cv (Shape.group ss :: rest) = shapesList cv (ss ++ rest) := by
  rw [shapesList_append]
  simp only [shapesList, shapeStrings]

/-- Claim C4: appending a `Group` to a canvas renders exactly the same
HTML string as appending the group's member shapes individually in the
same order (in any surrounding context of other shapes); nested groups
flatten recursively by the same equation; and rendering any shape that is
not a `Rect`, `Segment` or `Group` raises `ValueError`. -/
theorem c4_group_rendering_flattens (cv : Canvas) (pre ss post : List Shape)
    (d : String) (rest : List Shape) :
    canvasHtml cv (pre ++ Shape.group ss :: post) =
      canvasHtml cv (pre ++ (ss ++ post))
    ∧ shapesList cv (Shape.other d :: rest) =
      Except.error ("cannot draw unknown shape of class " ++ d)
    ∧ canvasHtml cv (Shape.other d :: rest) =
      Except.error ("cannot draw unknown shape of class " ++ d) := by
  have herr : shapesList cv (Shape.other d :: rest) =
      Except.error ("cannot draw unknown shape of class " ++ d) := by
    simp only [shapesList, shapeStrings]
    rfl
  have hflat : shapesList cv (pre ++ Shape.group ss :: post) =
      shapesList cv (pre ++ (ss ++ post)) := by
    simp only [shapesList_append, shapesList_group_cons]
  refine ⟨?_, herr, ?_⟩
  · simp only [canvasHtml, hflat]
  · simp only [canvasHtml, herr]
    rfl

end Geo
